import Mathlib

/-
Verification development for the small functional runtime in libfn.js:
a lazy-iteration layer over sequence-like values with generic combinators
and a generator-driven asynchronous execution engine (asyncExec).
Each definition is a shallow embedding of the corresponding source
function; theorems settle the specification claims against them.
-/

namespace LibFn

/-- Errors raised by the embedded code. `typeError` models a JavaScript
TypeError (calling a missing method, using the membership operator on a
primitive, iterating a non-iterable); `rangeError` models the RangeError
thrown by constructing an Array with a negative length. -/
inductive JSError where
  | typeError
  | rangeError
deriving DecidableEq, Repr

/-- JavaScript values used by the indexOf embedding: the undefined value,
the not-a-number numeric value, and ordinary (integer) numbers. -/
inductive JVal where
  | undef
  | nan
  | int (n : Int)
deriving DecidableEq, Repr

/-- Strict equality (the === operator) on the embedded value domain:
numbers compare by value, undefined equals undefined, and the
not-a-number value is equal to nothing, itself included. -/
def jsEq : JVal → JVal → Bool
  | JVal.int a, JVal.int b => a == b
  | JVal.undef, JVal.undef => true
  | _, _ => false

/-- The global isNaN test: true on the not-a-number value; also true on
undefined, whose numeric coercion is not-a-number; false on integers. -/
def jsIsNaN : JVal → Bool
  | JVal.nan => true
  | JVal.undef => true
  | JVal.int _ => false

/-- Loop body of the user-equality branch of indexOf. The source loops
over the elements but tests fn(item) each round: the equality function is
applied to the searched item and (implicitly) undefined, never to the
candidate element x, which is bound and unused. -/
def idxLoopUserFn (f : JVal → JVal → Bool) (item : JVal) : List JVal → Nat → Option Nat
  | [], _ => none
  | _x :: rest, i =>
    if f item JVal.undef then some i else idxLoopUserFn f item rest (i + 1)

/-- Loop body of the not-a-number branch of indexOf. The source loops
over the elements but tests isNaN(item) each round, not isNaN(x): the
candidate element x is bound and unused. -/
def idxLoopNaN (item : JVal) : List JVal → Nat → Option Nat
  | [], _ => none
  | _x :: rest, i =>
    if jsIsNaN item then some i else idxLoopNaN item rest (i + 1)

/-- indexOf from the source, for an array input (arrays always expose the
native indexOf method, so the final fallback loop of the source is
unreachable here and the native branch is embedded as a first-match
search under strict equality). Returns the index, or none for the
not-found sentinel (the source returns false). In branch priority order:
a caller-supplied equality function, then the not-a-number special case,
then the native strict-equality search. -/
def indexOf (xs : List JVal) (item : JVal) (fn : Option (JVal → JVal → Bool)) : Option Nat :=
  match fn with
  | some f => idxLoopUserFn f item xs 0
  | none =>
    if jsIsNaN item then
      idxLoopNaN item xs 0
    else
      match xs.findIdx? (fun x => jsEq x item) with
      | some i => some i
      | none => none

/-- One resolved call to range: the optional start argument (0 when
omitted), the end bound (exclusive), and the optional mapping function.
The source accepts these as a variadic list and resolves the four call
shapes by runtime type tests on the first two arguments; this structure
records the result of that resolution. `end` is a reserved word, hence
`stop`. -/
structure RangeCall where
  start : Option Int
  stop : Int
  map : Option (Int → Nat → Int)

/-- The fill loop of arange and irange without a mapping function:
produces val, val+1, ... for the given number of iterations (the source
iterates while val is less than the end bound). -/
def rangeLoopId (val : Int) : Nat → List Int
  | 0 => []
  | n + 1 => val :: rangeLoopId (val + 1) n

/-- The fill loop of arange and irange with a mapping function: produces
g val i for val = start, start+1, ... and i = 0, 1, ... -/
def rangeLoopFn (g : Int → Nat → Int) (val : Int) (i : Nat) : Nat → List Int
  | 0 => []
  | n + 1 => g val i :: rangeLoopFn g (val + 1) (i + 1) n

/-- arange from the source: allocates new Array(end - start), which
raises a RangeError when end - start is negative, then fills it with the
loop (without or with the mapping function). The loop runs
(end - start) times since it iterates while val is below the end bound. -/
def arange (c : RangeCall) : Except JSError (List Int) :=
  let start := c.start.getD 0
  if c.stop - start < 0 then
    Except.error JSError.rangeError
  else
    match c.map with
    | none => Except.ok (rangeLoopId start (c.stop - start).toNat)
    | some g => Except.ok (rangeLoopFn g start 0 (c.stop - start).toNat)

/-- irange from the source: identical argument handling and loops as
arange, but yields the values from a generator instead of allocating an
array, so no length allocation happens and an empty run of the loop
yields an empty sequence. The terminating generator is embedded as the
list of values it yields, in order. -/
def irange (c : RangeCall) : List Int :=
  let start := c.start.getD 0
  match c.map with
  | none => rangeLoopId start (c.stop - start).toNat
  | some g => rangeLoopFn g start 0 (c.stop - start).toNat

/-- The property names defined on the source fn object literal. Needed
to embed method lookup through `this`: ifilter calls this.iterable,
a property that does not exist here. -/
def fnProps : List String :=
  ["all", "any", "arange", "asyncExec", "concat", "first", "iterator",
   "indexOf", "imap", "irange", "ifilter", "forEach", "getPrototypes",
   "last", "logError", "partition", "setsAreEqual", "timeout", "zip"]

/-- The filtering loop that the body of ifilter performs on the cursor it
iterates: keep the elements satisfying the predicate, in order, passing
the ordinal over the source sequence (counted for every element, kept or
not) as the second argument. -/
def ifilterLoop (p : α → Nat → Bool) : List α → Nat → List α
  | [], _ => []
  | x :: rest, i =>
    if p x i then x :: ifilterLoop p rest (i + 1) else ifilterLoop p rest (i + 1)

/-- ifilter from the source. Its loop iterates this.iterable(iterable),
but the fn object defines no iterable property (the adapter method is
named iterator), so looking it up yields undefined and calling that
raises a TypeError on the first pull from the generator, before any
element is produced. The filtering loop is embedded in the branch that
would run if the property existed and resolved to the iterator adapter. -/
def ifilter (xs : List α) (p : α → Nat → Bool) : Except JSError (List α) :=
  if "iterable" ∈ fnProps then
    Except.ok (ifilterLoop p xs 0)
  else
    Except.error JSError.typeError

/-- A value handed to the trampoline at a suspension point of an
asyncExec routine. `thenable` is a value exposing the then property (a
pending value); since a pending value eventually settles, it is embedded
by its settlement outcome: success with a value or failure with an
error. `objPlain` is an object without the then property, on which the
membership test for then is valid and false. `prim` is a primitive
value (such as a bare number), on which the JavaScript membership
operator itself throws a TypeError. -/
inductive Yielded (ε α : Type) where
  | thenable (outcome : Except ε α)
  | objPlain (v : α)
  | prim (v : α)

/-- A routine (generator) as seen by the trampoline, already advanced to
its next observable event. `done v` is normal completion with value v.
`raise e` is a failure thrown synchronously out of the generator during
the resume that produced this event. `yield y kv ke` is a suspension
point handing the trampoline the value y, with kv the continuation used
when the generator is resumed by next(v) at this point and ke the
continuation used when it is resumed by throw(e) at this point; each
continuation again yields the next observable event, so a failure thrown
during that resumed segment shows up as a raise node. -/
inductive Routine (ε α β : Type) where
  | done (v : β)
  | raise (e : ε)
  | yield (y : Yielded ε α) (kv : α → Routine ε α β) (ke : ε → Routine ε α β)

/-- The outcome of one asyncExec run. `done` is the outer promise
resolving with the value of the completed generator; `failed` is the
outer promise rejecting with a failure that escaped the generator or a
pending value; `typeErrored` is the outer promise rejecting with the
TypeError thrown by the membership test for then applied to a yielded
primitive value (that throw happens inside processIteration, is caught
by the try block of the enclosing resume, and is passed to reject). -/
inductive RunResult (ε β : Type) where
  | done (v : β)
  | failed (e : ε)
  | typeErrored

/-- processIteration from the source, fused with the resumeGenerator and
throwGenerator calls that it triggers when the yielded pending value
settles. A done iteration resolves with its value. A yielded value with
the then property registers the two resume continuations and the run
continues with whichever one the settlement selects: next(v) on success,
throw(e) on failure. A yielded object without the then property resumes
immediately with that value. A yielded primitive makes the membership
test itself throw, rejecting the run. The try blocks around
iterator.next and iterator.throw are embedded by the raise node turning
into a failed outcome. -/
def processIteration : Routine ε α β → RunResult ε β
  | Routine.done v => RunResult.done v
  | Routine.raise e => RunResult.failed e
  | Routine.yield (Yielded.thenable (Except.ok v)) kv _ => processIteration (kv v)
  | Routine.yield (Yielded.thenable (Except.error e)) _ ke => processIteration (ke e)
  | Routine.yield (Yielded.objPlain v) kv _ => processIteration (kv v)
  | Routine.yield (Yielded.prim _) _ _ => RunResult.typeErrored

/-- resumeGenerator from the source: resume the generator at its current
suspension point by feeding the value in through next, then process the
resulting iteration; a failure thrown out of the generator is caught and
rejects the run (the raise node of the continuation). -/
def resumeGenerator (kv : α → Routine ε α β) (v : α) : RunResult ε β :=
  processIteration (kv v)

/-- throwGenerator from the source: resume the generator at its current
suspension point by raising the failure inside it through throw, then
process the resulting iteration; a failure thrown out of the generator
is caught and rejects the run. -/
def throwGenerator (ke : ε → Routine ε α β) (e : ε) : RunResult ε β :=
  processIteration (ke e)

/-- asyncExec from the source: invoke the generator factory and drive the
resulting iterator with the trampoline, starting with the initial
resume; the routine argument stands for the generator already advanced
by that first resume to its first observable event. -/
def asyncExec (g : Unit → Routine ε α β) : RunResult ε β :=
  processIteration (g ())

/-- The number of rounds the zip loop runs: the greatest length among
the input cursors (zero when there are no inputs). -/
def maxLen (its : List (List α)) : Nat :=
  its.foldr (fun l m => max l.length m) 0

theorem maxLen_map_drop (its : List (List α)) :
    maxLen (its.map (fun l => l.drop 1)) = maxLen its - 1 := by
  induction its with
  | nil => rfl
  | cons l ls ih =>
    simp only [maxLen, List.map_cons, List.foldr_cons] at *
    rw [ih]
    simp only [List.length_drop]
    omega

theorem maxLen_pos_of_not_all_empty (its : List (List α))
    (h : its.all List.isEmpty = false) : 1 ≤ maxLen its := by
  induction its with
  | nil => simp at h
  | cons l ls ih =>
    simp only [List.all_cons, Bool.and_eq_false_iff] at h
    simp only [maxLen, List.foldr_cons]
    rcases h with h | h
    · have : l ≠ [] := by
        intro hl
        rw [hl] at h
        simp at h
      have : 1 ≤ l.length := List.length_pos.mpr this
      omega
    · have := ih h
      simp only [maxLen] at this
      omega

theorem maxLen_eq_zero_of_all_empty (its : List (List α))
    (h : its.all List.isEmpty = true) : maxLen its = 0 := by
  induction its with
  | nil => rfl
  | cons l ls ih =>
    simp only [List.all_cons, Bool.and_eq_true] at h
    have hl : l = [] := List.isEmpty_iff.mp h.1
    simp only [maxLen, List.foldr_cons, hl]
    have := ih h.2
    simp only [maxLen] at this
    simp [this]

/-- zip from the source: obtain a cursor for each input, and loop
calling next on every cursor each round; the loop continues while not
all of the iterations report done, and each round yields the array of
the values the iterations carry (the done iterations carrying
undefined, embedded as none). An exhausted cursor is an empty list; the
value of next on it is none and its tail stays empty. -/
def zip (its : List (List α)) : List (List (Option α)) :=
  if h : its.all List.isEmpty then
    []
  else
    its.map List.head? :: zip (its.map (fun l => l.drop 1))
termination_by maxLen its
decreasing_by
  have h1 := maxLen_pos_of_not_all_empty its (by simpa using h)
  have h2 := maxLen_map_drop its
  omega

/-- Closed form of the zip loop: it runs one round per index below the
greatest input length, and round k carries, for every input, the element
at position k when the input still has one and none (undefined)
afterwards. -/
theorem zip_eq_rounds (its : List (List α)) :
    zip its = (List.range (maxLen its)).map (fun k => its.map (fun l => l[k]?)) := by
  generalize hn : maxLen its = n
  induction n using Nat.strong_induction_on generalizing its with
  | _ n ih =>
    by_cases h : its.all List.isEmpty
    · rw [zip, dif_pos h]
      rw [maxLen_eq_zero_of_all_empty its h] at hn
      subst hn
      rfl
    · have hpos : 1 ≤ maxLen its := maxLen_pos_of_not_all_empty its (by simpa using h)
      obtain ⟨m, hm⟩ : ∃ m, n = m + 1 := ⟨n - 1, by omega⟩
      subst hm
      rw [zip, dif_neg h]
      have hdrop : maxLen (its.map (fun l => l.drop 1)) = m := by
        rw [maxLen_map_drop]
        omega
      rw [ih m (by omega) (its.map (fun l => l.drop 1)) hdrop]
      rw [List.range_succ_eq_map]
      simp only [List.map_cons, List.map_map]
      congr 1
      · exact List.map_congr_left (fun l _ => List.head?_eq_getElem? l)
      · apply List.map_congr_left
        intro k _
        simp only [Function.comp_apply]
        apply List.map_congr_left
        intro l _
        simp only [Function.comp_apply, List.getElem?_drop, Nat.succ_eq_add_one]
        rw [Nat.add_comm]

/-- Modelled from the spec: the Optional type referenced by first and
last is not among the source files; the spec describes it as a
presence/absence wrapper returned by element-extraction operations,
distinguishing no element from an element that is a falsy or null
value. -/
inductive Optional (α : Type) where
  | present (v : α)
  | empty
deriving DecidableEq, Repr

/-- Modelled from the spec: wrap a value that is known to be present. -/
def Optional.of (v : α) : Optional α :=
  Optional.present v

/-- Modelled from the spec: the absent wrapper. -/
def Optional.ofNull : Optional α :=
  Optional.empty

/-- Modelled from the spec: wrap a possibly-missing value, absent when
the value is undefined or null (embedded as none) and present
otherwise. -/
def Optional.ofNullable : Option α → Optional α
  | some v => Optional.present v
  | none => Optional.empty

/-- A sequence-like JavaScript value as inspected by first, iterator and
last: it may expose the native iteration capability (Symbol.iterator,
embedded with the list of values its cursor yields), it may carry a
length property, and it has integer-indexed properties, with none
standing for an absent property (reading it gives undefined). -/
structure SeqLike (α : Type) where
  iterElems : Option (List α)
  length : Option Int
  index : Int → Option α

/-- first from the source: when the value exposes the iteration
capability, pull one element from a fresh cursor (present for a first
element, absent for an exhausted cursor); otherwise, when the value has
a property at index 0, return that element; otherwise raise a TypeError
naming the value not iterable. The length property is never consulted. -/
def first (o : SeqLike α) : Except JSError (Optional α) :=
  match o.iterElems with
  | some xs =>
    match xs with
    | x :: _ => Except.ok (Optional.of x)
    | [] => Except.ok Optional.ofNull
  | none =>
    match o.index 0 with
    | some v => Except.ok (Optional.of v)
    | none => Except.error JSError.typeError

/-- iterator from the source (the sequence adapter): a value exposing
the iteration capability is returned as its own cursor; otherwise a
value with a length property gets a synthesized cursor walking indices
0 to length-1 and yielding each indexed property (undefined, embedded as
none, where the property is absent, and nothing at all when the length
is not positive); otherwise a TypeError is raised. -/
def iterator (o : SeqLike α) : Except JSError (List (Option α)) :=
  match o.iterElems with
  | some xs => Except.ok (xs.map some)
  | none =>
    match o.length with
    | some len => Except.ok ((List.range len.toNat).map (fun i => o.index i))
    | none => Except.error JSError.typeError

/-- last from the source: a value with a length property answers
directly with the property at index length - 1, wrapped by ofNullable
(absent property, read as undefined, gives the empty Optional); only
otherwise is the iteration capability consulted, exhausting a cursor and
wrapping the value left behind (undefined, hence empty, when the cursor
yields nothing); with neither capability a TypeError is raised. -/
def last (o : SeqLike α) : Except JSError (Optional α) :=
  match o.length with
  | some len => Except.ok (Optional.ofNullable (o.index (len - 1)))
  | none =>
    match o.iterElems with
    | some xs => Except.ok (Optional.ofNullable xs.getLast?)
    | none => Except.error JSError.typeError

/-- Claim C1, counterexample: zip on the inputs [1,2,3] and [4,5] does
not stop when the shorter input is exhausted; it yields a third round
[3, undefined] before stopping, so the claimed output of exactly two
rounds is wrong. -/
theorem zip_shortest_counterexample :
    zip [[(1 : Int), 2, 3], [4, 5]]
        = [[some 1, some 4], [some 2, some 5], [some 3, none]]
    ∧ zip [[(1 : Int), 2, 3], [4, 5]] ≠ [[some 1, some 4], [some 2, some 5]] := by
  have h := zip_eq_rounds [[(1 : Int), 2, 3], [4, 5]]
  refine ⟨?_, ?_⟩
  · rw [h]
    decide
  · rw [h]
    decide

/-- Claim C1 as amended: zip advances all input cursors in lockstep and
yields, on each round, the array of the values the cursors report, with
an exhausted cursor contributing undefined (none); it terminates only
once ALL input cursors are exhausted, running one round per index below
the greatest input length. -/
theorem zip_rounds_spec {α : Type} (its : List (List α)) :
    zip its = (List.range (maxLen its)).map (fun k => its.map (fun l => l[k]?)) :=
  zip_eq_rounds its

/-- Claim C2: when the pending value awaited at a suspension point
settles with failure e, the trampoline resumes the routine through the
throw entry point, raising e exactly there; if the routine catches e
in-band and completes with a fallback value the run resolves to that
fallback, and if the raise (or any failure raised during that resume)
goes uncaught the run rejects with that failure. -/
theorem asyncExec_failure_resume {ε α β : Type} (e : ε)
    (kv : α → Routine ε α β) (ke : ε → Routine ε α β) :
    asyncExec (fun _ => Routine.yield (Yielded.thenable (Except.error e)) kv ke)
        = throwGenerator ke e
    ∧ (∀ b : β, ke e = Routine.done b →
        asyncExec (fun _ => Routine.yield (Yielded.thenable (Except.error e)) kv ke)
          = RunResult.done b)
    ∧ (∀ e2 : ε, ke e = Routine.raise e2 →
        asyncExec (fun _ => Routine.yield (Yielded.thenable (Except.error e)) kv ke)
          = RunResult.failed e2) := by
  refine ⟨rfl, ?_, ?_⟩
  · intro b hb
    show processIteration (ke e) = RunResult.done b
    rw [hb]
    rfl
  · intro e2 he
    show processIteration (ke e) = RunResult.failed e2
    rw [he]
    rfl

/-- Claim C2, witness: the spec scenario where a routine awaits a
pending value failing with error code 7, catches it at the suspension
point and completes with the fallback value 99; the run resolves to
99. -/
theorem asyncExec_failure_resume_witness :
    asyncExec (fun _ => Routine.yield (Yielded.thenable (Except.error (7 : Nat)))
        (fun v : Nat => Routine.done (v * 2)) (fun _ => Routine.done 99))
      = RunResult.done 99 :=
  (asyncExec_failure_resume 7 (fun v => Routine.done (v * 2))
    (fun _ => Routine.done 99)).2.1 99 rfl

/-- Claim C3: when the pending value awaited at a suspension point
settles successfully with v, the trampoline resumes the routine through
the next entry point, feeding v back in exactly there; when the cursor
then reports normal completion the run resolves to its final value. -/
theorem asyncExec_success_resume {ε α β : Type} (v : α)
    (kv : α → Routine ε α β) (ke : ε → Routine ε α β) :
    asyncExec (fun _ => Routine.yield (Yielded.thenable (Except.ok v)) kv ke)
        = resumeGenerator kv v
    ∧ (∀ b : β, kv v = Routine.done b →
        asyncExec (fun _ => Routine.yield (Yielded.thenable (Except.ok v)) kv ke)
          = RunResult.done b) := by
  refine ⟨rfl, ?_⟩
  intro b hb
  show processIteration (kv v) = RunResult.done b
  rw [hb]
  rfl

/-- Claim C3, witness: the spec scenario where a routine awaits a
pending value resolving to 5 and then returns 5 * 2; the run resolves
to 10. -/
theorem asyncExec_success_resume_witness :
    asyncExec (fun _ => Routine.yield (Yielded.thenable (Except.ok (5 : Nat)))
        (fun v => Routine.done (v * 2)) (fun e : Nat => Routine.raise e))
      = RunResult.done 10 :=
  (asyncExec_success_resume 5 (fun v => Routine.done (v * 2))
    (fun e => Routine.raise e)).2 10 rfl

/-- Claim C4, code evaluated at the failing input: with no equality
function and the not-a-number value as the item, indexOf on
[1, NaN, 3] answers 0, not the claimed 1: the loop tests isNaN(item),
which is constantly true, instead of isNaN(x) on the candidate, so the
first element matches regardless of its value. -/
theorem indexOf_nan_bug_eval :
    indexOf [JVal.int 1, JVal.nan, JVal.int 3] JVal.nan none = some 0 := by
  decide

/-- Claim C5, code evaluated at the failing input: with the strict
equality predicate supplied as the equality function, indexOf on [5, 7]
searching for 7 answers the not-found sentinel (none) even though the
element at index 1 matches the item under that function: the loop calls
the function on the item alone (its second argument being undefined)
and never on a candidate element. -/
theorem indexOf_equalsFn_bug_eval :
    indexOf [JVal.int 5, JVal.int 7] (JVal.int 7) (some jsEq) = none
    ∧ jsEq (JVal.int 7) (JVal.int 7) = true := by
  decide

/-- Claim C6, counterexample: the eager range variant called with
start 5 and end 2 raises a RangeError (allocating an array of negative
length) instead of yielding an empty sequence without error. -/
theorem arange_negative_raises :
    arange ⟨some 5, 2, none⟩ = Except.error JSError.rangeError := by
  rfl

/-- Claim C6 as amended: for end at most start the lazy range variant
yields an empty sequence and never raises; the eager variant returns
the empty sequence when end equals start, but raises a RangeError when
end is strictly below start. -/
theorem range_empty_amended (s e : Int) (m : Option (Int → Nat → Int)) (h : e ≤ s) :
    irange ⟨some s, e, m⟩ = []
    ∧ (e = s → arange ⟨some s, e, m⟩ = Except.ok [])
    ∧ (e < s → arange ⟨some s, e, m⟩ = Except.error JSError.rangeError) := by
  have h0 : (e - s).toNat = 0 := by omega
  refine ⟨?_, ?_, ?_⟩
  · cases m with
    | none => simp [irange, h0, rangeLoopId]
    | some g => simp [irange, h0, rangeLoopFn]
  · intro hes
    have hlt : ¬(e - s < 0) := by omega
    cases m with
    | none => simp [arange, hlt, h0, rangeLoopId]
    | some g => simp [arange, hlt, h0, rangeLoopFn]
  · intro hlt
    have hneg : e - s < 0 := by omega
    cases m with
    | none => simp [arange, hneg]
    | some g => simp [arange, hneg]

/-- Claim C6, witness for the amended claim at start 5, end 2. -/
theorem range_empty_amended_witness :
    irange ⟨some 5, 2, none⟩ = []
    ∧ arange ⟨some 5, 2, none⟩ = Except.error JSError.rangeError :=
  ⟨(range_empty_amended 5 2 none (by decide)).1,
   (range_empty_amended 5 2 none (by decide)).2.2 (by decide)⟩

/-- Claim C7, code evaluated at the failing input: pulling from the
ifilter generator with an always-true predicate on [1, 2, 3] raises a
TypeError before yielding anything, because the loop calls
this.iterable, a method that does not exist on the fn object, instead
of the iterator adapter. -/
theorem ifilter_bug_eval :
    ifilter [1, 2, 3] (fun _ _ => true)
      = (Except.error JSError.typeError : Except JSError (List Nat)) := by
  rfl

/-- Claim C8: whenever the eager range variant returns a sequence, the
lazy variant started with the same resolved arguments yields exactly
the same elements in the same order. -/
theorem irange_refines_arange (c : RangeCall) (l : List Int)
    (h : arange c = Except.ok l) : irange c = l := by
  unfold arange at h
  by_cases hlt : c.stop - c.start.getD 0 < 0
  · simp [hlt] at h
  · cases hm : c.map with
    | none =>
      rw [hm] at h
      simp [hlt] at h
      simp [irange, hm, ← h]
    | some g =>
      rw [hm] at h
      simp [hlt] at h
      simp [irange, hm, ← h]

/-- Claim C8, witness: both variants at start 0, end 5 with no mapping
function produce 0, 1, 2, 3, 4. -/
theorem irange_refines_arange_witness :
    arange ⟨some 0, 5, none⟩ = Except.ok [0, 1, 2, 3, 4]
    ∧ irange ⟨some 0, 5, none⟩ = [0, 1, 2, 3, 4] :=
  ⟨by rfl, irange_refines_arange ⟨some 0, 5, none⟩ [0, 1, 2, 3, 4] (by rfl)⟩

/-- Claim C9, code evaluated at the failing input: a routine that hands
the trampoline the primitive value 5 at a suspension point is not
resumed with 5; the membership test for the then property applied to a
primitive throws a TypeError, which the resume wrapper catches and
passes to reject, so the run rejects instead of resolving to 10. -/
theorem asyncExec_primitive_yield_bug_eval :
    asyncExec (fun _ => Routine.yield (Yielded.prim (5 : Nat))
        (fun v => Routine.done (v * 2)) (fun e : Nat => Routine.raise e))
      = RunResult.typeErrored := by
  rfl

/-- Claim C10: a sequence-like value with a length property equal to 0,
no property at any index and no native iteration capability is rejected
by first with a TypeError (first detects array-likes by the presence of
index 0, not by the length property), while the sequence adapter
accepts it, synthesizing an empty cursor from the length property, and
last accepts it too, answering the empty Optional. -/
theorem first_lengthZero_arrayLike {α : Type} (o : SeqLike α)
    (hiter : o.iterElems = none) (hlen : o.length = some 0)
    (hidx : ∀ i : Int, o.index i = none) :
    first o = Except.error JSError.typeError
    ∧ iterator o = Except.ok []
    ∧ last o = Except.ok Optional.empty := by
  refine ⟨?_, ?_, ?_⟩
  · simp [first, hiter, hidx]
  · simp [iterator, hiter, hlen]
  · simp [last, hlen, hidx, Optional.ofNullable]

/-- Claim C10, witness at a concrete length-0 array-like value. -/
theorem first_lengthZero_arrayLike_witness :
    first (⟨none, some 0, fun _ => none⟩ : SeqLike Nat) = Except.error JSError.typeError
    ∧ iterator (⟨none, some 0, fun _ => none⟩ : SeqLike Nat) = Except.ok []
    ∧ last (⟨none, some 0, fun _ => none⟩ : SeqLike Nat) = Except.ok Optional.empty :=
  first_lengthZero_arrayLike ⟨none, some 0, fun _ => none⟩ rfl rfl (fun _ => rfl)

end LibFn
